import Mathlib

/-!
Verification of the web-page image discovery and captioning pipeline
(`url_caption` in `app.py`) against its specification.

The embedding models the candidate loop of `url_caption`: per-element
attribute extraction (`src`, then `data-src`, then the first `srcset`
entry, with Python falsiness semantics), the `.svg` string filter, the
relative-URL fixing step, and the fetch / decode / size-filter / caption
stage.  Network fetching and the captioning model are external
collaborators, so they appear as oracle functions; every exception a
collaborator can raise inside the `try` block is modelled as `none`.
String primitives are re-implemented by structural recursion over the
character list so that every definition evaluates inside the kernel.
-/

namespace PolyApi

/-- Byte-for-byte model of Python `s.startswith(pre)`: `pre.data` is a
list prefix of `s.data`. -/
def strStartsWith (s pre : String) : Bool :=
  pre.data.isPrefixOf s.data

/-- Model of Python `s.endswith(suf)`: `suf.data` is a list suffix of
`s.data`. -/
def strEndsWith (s suf : String) : Bool :=
  suf.data.isSuffixOf s.data

/-- Containment of `pat` as a contiguous run inside a character list. -/
def listHasSubstr (pat : List Char) : List Char → Bool
  | [] => pat.isPrefixOf []
  | c :: cs => pat.isPrefixOf (c :: cs) || listHasSubstr pat cs

/-- Model of Python `pat in s` (substring containment). -/
def strContains (s pat : String) : Bool :=
  listHasSubstr pat.data s.data

/-- Model of Python `s.rstrip("/")`: drop all trailing `'/'` characters. -/
def rstripSlashes (s : String) : String :=
  String.mk ((s.data.reverse.dropWhile (fun c => c = '/')).reverse)

/-- Accumulator-style worker for whitespace splitting: `cur` holds the
characters of the word currently being read, in reverse. -/
def wsSplitGo : List Char → List Char → List (List Char)
  | cur, [] => if cur.isEmpty then [] else [cur.reverse]
  | cur, c :: cs =>
    if c.isWhitespace then
      if cur.isEmpty then wsSplitGo [] cs else cur.reverse :: wsSplitGo [] cs
    else
      wsSplitGo (c :: cur) cs

/-- Model of Python `s.split()` with no separator argument: split on runs
of whitespace and drop empty pieces, so `"".split()` is `[]`. -/
def pySplitWs (s : String) : List String :=
  (wsSplitGo [] s.data).map String.mk

/-- An `<img>` element as seen by the extractor: the three attributes the
code reads (`src`, `data-src`, `srcset`), each possibly absent. -/
structure ImgElement where
  src : Option String
  dataSrc : Option String
  srcset : Option String
  deriving DecidableEq, Repr

/-- Python truthiness for an optional string: `None` and `""` are falsy. -/
def isFalsy : Option String → Bool
  | none => true
  | some s => s = ""

/-- Python `a or b` on optional strings: `b` whenever `a` is falsy. -/
def pyOr (a b : Option String) : Option String :=
  if isFalsy a then b else a

/-- Extraction of the raw image reference from one element, mirroring
`img_element.get("src") or img_element.get("data-src")` followed by the
`srcset` fallback `img_element["srcset"].split()[0]`.  Indexing `[0]` on
the empty split result raises `IndexError`, modelled as `.error ()`. -/
def extractRef (e : ImgElement) : Except Unit (Option String) :=
  let u := pyOr e.src e.dataSrc
  match e.srcset with
  | some ss =>
    if isFalsy u then
      match pySplitWs ss with
      | [] => .error ()
      | w :: _ => .ok (some w)
    else .ok u
  | none => .ok u

/-- The vector-format test `img_url.endswith(".svg") or ".svg" in img_url`. -/
def containsSvgStr (s : String) : Bool :=
  strEndsWith s ".svg" || strContains s ".svg"

/-- The relative-URL fixing chain: scheme-relative refs get `https:`
prefixed, root-relative refs are appended to the page URL with trailing
slashes stripped, refs starting with `http` pass unchanged, anything
else is dropped. -/
def resolveRef (page ref : String) : Option String :=
  if strStartsWith ref "//" then some ("https:" ++ ref)
  else if strStartsWith ref "/" then some (rstripSlashes page ++ ref)
  else if strStartsWith ref "http" then some ref
  else none

/-- Pre-fetch stage for one nonempty raw reference: the `.svg` skip
followed by the relative-URL fixing chain. -/
def resolveCandidate (page ref : String) : Option String :=
  if containsSvgStr ref then none else resolveRef page ref

/-- A decoded raster image: the only observables the pipeline uses are
its pixel dimensions. -/
structure DecodedImage where
  width : Nat
  height : Nat
  deriving DecidableEq, Repr

/-- One accumulated result: the resolved image URL paired with its
caption, as appended by `captions.append({"url": ..., "caption": ...})`. -/
abbrev CaptionResult := String × String

/-- The external collaborators: `fetchDecode` is `requests.get` plus
`Image.open` (any exception in either is `none`), `captionImage` is the
processor/model/decode chain on the RGB-converted image (`none` when it
raises). -/
structure Oracles where
  fetchDecode : String → Option DecodedImage
  captionImage : DecodedImage → Option String

/-- The body of the `try` block for one resolved URL: fetch and decode,
discard if `width * height < 200`, then caption; `none` means the
candidate produced no result (skip or caught exception). -/
def stepCandidate (o : Oracles) (r : String) : Option CaptionResult :=
  match o.fetchDecode r with
  | none => none
  | some img =>
    if img.width * img.height < 200 then none
    else
      match o.captionImage img with
      | none => none
      | some c => some (r, c)

/-- The candidate loop of `url_caption`, instrumented with the list of
URLs handed to the image fetcher.  `acc` is `captions`, `fetched`
records each URL passed to `requests.get`.  `.error ()` is an uncaught
exception escaping the loop (the `IndexError` of the `srcset` fallback);
`.ok` carries the final `captions` list and the fetch trace. -/
def runLoop (o : Oracles) (page : String) :
    List ImgElement → List CaptionResult → List String →
    Except Unit (List CaptionResult × List String)
  | [], acc, fetched => .ok (acc, fetched)
  | e :: rest, acc, fetched =>
    match extractRef e with
    | .error _ => .error ()
    | .ok u =>
      if isFalsy u then runLoop o page rest acc fetched
      else
        match u with
        | none => runLoop o page rest acc fetched
        | some s =>
          match resolveCandidate page s with
          | none => runLoop o page rest acc fetched
          | some r =>
            match stepCandidate o r with
            | none => runLoop o page rest acc (fetched ++ [r])
            | some pr =>
              if 5 ≤ (acc ++ [pr]).length then .ok (acc ++ [pr], fetched ++ [r])
              else runLoop o page rest (acc ++ [pr]) (fetched ++ [r])

/-- Net effect of the pipeline on a single element, used to state
order-preservation: `none` when the element contributes no result. -/
def candidateResult (o : Oracles) (page : String) (e : ImgElement) :
    Option CaptionResult :=
  match extractRef e with
  | .error _ => none
  | .ok u =>
    if isFalsy u then none
    else
      match u with
      | none => none
      | some s =>
        match resolveCandidate page s with
        | none => none
        | some r => stepCandidate o r

/-- Collaborator behaviour where every image fetch and every caption
call raises: used to exercise runs in which no candidate succeeds. -/
def oFail : Oracles := ⟨fun _ => none, fun _ => none⟩

/-- Collaborator behaviour where every URL decodes to a 20 x 20 image
and every caption call returns a fixed caption. -/
def oGood : Oracles := ⟨fun _ => some ⟨20, 20⟩, fun _ => some "a photo"⟩

/-- Collaborator behaviour where one URL decodes to a 1 x 1 tracking
pixel and every other URL to a 30 x 30 photo. -/
def oMixed : Oracles :=
  ⟨fun u => if u = "http://small.example/s.jpg" then some ⟨1, 1⟩ else some ⟨30, 30⟩,
   fun _ => some "a photo"⟩

/-- An element carrying a plain absolute image URL in `src`. -/
def photoElem : ImgElement := ⟨some "http://img.example/p.jpg", none, none⟩

/-- Six identical fetchable candidates: one more than the quota. -/
def sixCandidates : List ImgElement := List.replicate 6 photoElem

/-! ### Unfolding and branch lemmas for the candidate loop -/

theorem runLoop_nil (o : Oracles) (page : String) (acc : List CaptionResult)
    (fetched : List String) : runLoop o page [] acc fetched = .ok (acc, fetched) := rfl

theorem runLoop_cons (o : Oracles) (page : String) (e : ImgElement)
    (rest : List ImgElement) (acc : List CaptionResult) (fetched : List String) :
    runLoop o page (e :: rest) acc fetched =
      match extractRef e with
      | .error _ => .error ()
      | .ok u =>
        if isFalsy u then runLoop o page rest acc fetched
        else
          match u with
          | none => runLoop o page rest acc fetched
          | some s =>
            match resolveCandidate page s with
            | none => runLoop o page rest acc fetched
            | some r =>
              match stepCandidate o r with
              | none => runLoop o page rest acc (fetched ++ [r])
              | some pr =>
                if 5 ≤ (acc ++ [pr]).length then .ok (acc ++ [pr], fetched ++ [r])
                else runLoop o page rest (acc ++ [pr]) (fetched ++ [r]) := rfl

theorem runLoop_extract_error (o : Oracles) (page : String) (e : ImgElement)
    (rest : List ImgElement) (acc : List CaptionResult) (fetched : List String)
    (h : extractRef e = .error ()) :
    runLoop o page (e :: rest) acc fetched = .error () := by
  rw [runLoop_cons, h]

theorem runLoop_skip_falsy (o : Oracles) (page : String) (e : ImgElement)
    (rest : List ImgElement) (acc : List CaptionResult) (fetched : List String)
    (u : Option String) (h : extractRef e = .ok u) (hf : isFalsy u = true) :
    runLoop o page (e :: rest) acc fetched = runLoop o page rest acc fetched := by
  rw [runLoop_cons, h]
  simp [hf]

theorem runLoop_skip_unresolved (o : Oracles) (page : String) (e : ImgElement)
    (rest : List ImgElement) (acc : List CaptionResult) (fetched : List String)
    (s : String) (h : extractRef e = .ok (some s)) (hs : s ≠ "")
    (hr : resolveCandidate page s = none) :
    runLoop o page (e :: rest) acc fetched = runLoop o page rest acc fetched := by
  rw [runLoop_cons, h]
  simp [isFalsy, hs, hr]

theorem runLoop_step_none (o : Oracles) (page : String) (e : ImgElement)
    (rest : List ImgElement) (acc : List CaptionResult) (fetched : List String)
    (s r : String) (h : extractRef e = .ok (some s)) (hs : s ≠ "")
    (hr : resolveCandidate page s = some r) (hstep : stepCandidate o r = none) :
    runLoop o page (e :: rest) acc fetched =
      runLoop o page rest acc (fetched ++ [r]) := by
  rw [runLoop_cons, h]
  simp [isFalsy, hs, hr, hstep]

theorem runLoop_step_some (o : Oracles) (page : String) (e : ImgElement)
    (rest : List ImgElement) (acc : List CaptionResult) (fetched : List String)
    (s r : String) (pr : CaptionResult) (h : extractRef e = .ok (some s))
    (hs : s ≠ "") (hr : resolveCandidate page s = some r)
    (hstep : stepCandidate o r = some pr) :
    runLoop o page (e :: rest) acc fetched =
      if 5 ≤ (acc ++ [pr]).length then .ok (acc ++ [pr], fetched ++ [r])
      else runLoop o page rest (acc ++ [pr]) (fetched ++ [r]) := by
  rw [runLoop_cons, h]
  simp [isFalsy, hs, hr, hstep]

/-! ### Per-element net-effect lemmas -/

theorem candidateResult_of_falsy (o : Oracles) (page : String) (e : ImgElement)
    (u : Option String) (h : extractRef e = .ok u) (hf : isFalsy u = true) :
    candidateResult o page e = none := by
  unfold candidateResult
  rw [h]
  simp [hf]

theorem candidateResult_of_unresolved (o : Oracles) (page : String) (e : ImgElement)
    (s : String) (h : extractRef e = .ok (some s)) (hs : s ≠ "")
    (hr : resolveCandidate page s = none) :
    candidateResult o page e = none := by
  unfold candidateResult
  rw [h]
  simp [isFalsy, hs, hr]

theorem candidateResult_of_resolved (o : Oracles) (page : String) (e : ImgElement)
    (s r : String) (h : extractRef e = .ok (some s)) (hs : s ≠ "")
    (hr : resolveCandidate page s = some r) :
    candidateResult o page e = stepCandidate o r := by
  unfold candidateResult
  rw [h]
  simp [isFalsy, hs, hr]

theorem stepCandidate_fst (o : Oracles) (r : String) (pr : CaptionResult)
    (h : stepCandidate o r = some pr) : pr.1 = r := by
  unfold stepCandidate at h
  split at h
  · exact Option.noConfusion h
  · split at h
    · exact Option.noConfusion h
    · split at h
      · exact Option.noConfusion h
      · simp only [Option.some.injEq] at h
        subst h
        rfl

/-! ### Main structural lemmas about the loop -/

/-- The successful-run characterization: the final `captions` list is the
accumulator followed by the per-element results of the remaining
candidates, in discovery order, cut off at the quota. -/
theorem runLoop_ok_eq (o : Oracles) (page : String) :
    ∀ (es : List ImgElement) (acc : List CaptionResult) (fetched : List String)
      (res : List CaptionResult) (fin : List String),
      acc.length < 5 →
      runLoop o page es acc fetched = .ok (res, fin) →
      res = acc ++ (es.filterMap (candidateResult o page)).take (5 - acc.length) := by
  intro es
  induction es with
  | nil =>
    intro acc fetched res fin hlt h
    rw [runLoop_nil] at h
    simp only [Except.ok.injEq, Prod.mk.injEq] at h
    obtain ⟨rfl, rfl⟩ := h
    simp
  | cons e rest ih =>
    intro acc fetched res fin hlt h
    cases hE : extractRef e with
    | error u =>
      cases u
      rw [runLoop_extract_error o page e rest acc fetched hE] at h
      exact Except.noConfusion h
    | ok u =>
      by_cases hf : isFalsy u = true
      · rw [runLoop_skip_falsy o page e rest acc fetched u hE hf] at h
        rw [List.filterMap_cons, candidateResult_of_falsy o page e u hE hf]
        exact ih acc fetched res fin hlt h
      · cases u with
        | none => simp [isFalsy] at hf
        | some s =>
          have hs : s ≠ "" := by simpa [isFalsy] using hf
          cases hR : resolveCandidate page s with
          | none =>
            rw [runLoop_skip_unresolved o page e rest acc fetched s hE hs hR] at h
            rw [List.filterMap_cons, candidateResult_of_unresolved o page e s hE hs hR]
            exact ih acc fetched res fin hlt h
          | some r =>
            cases hS : stepCandidate o r with
            | none =>
              rw [runLoop_step_none o page e rest acc fetched s r hE hs hR hS] at h
              rw [List.filterMap_cons, candidateResult_of_resolved o page e s r hE hs hR, hS]
              exact ih acc (fetched ++ [r]) res fin hlt h
            | some pr =>
              rw [runLoop_step_some o page e rest acc fetched s r pr hE hs hR hS] at h
              rw [List.filterMap_cons, candidateResult_of_resolved o page e s r hE hs hR, hS]
              by_cases hq : 5 ≤ (acc ++ [pr]).length
              · rw [if_pos hq] at h
                simp only [Except.ok.injEq, Prod.mk.injEq] at h
                obtain ⟨rfl, rfl⟩ := h
                have hq' : 5 ≤ acc.length + 1 := by simpa using hq
                have h1 : 5 - acc.length = 1 := by omega
                rw [h1]
                simp
              · rw [if_neg hq] at h
                have hlt' : (acc ++ [pr]).length < 5 := Nat.lt_of_not_le hq
                have hrec := ih (acc ++ [pr]) (fetched ++ [r]) res fin hlt' h
                have hlen : (acc ++ [pr]).length = acc.length + 1 := by simp
                have h2 : 5 - acc.length = (5 - (acc.length + 1)) + 1 := by omega
                rw [hrec, hlen, h2, List.take_succ_cons]
                simp

/-- Once a successful run has hit the quota, appending further candidate
elements to the page does not change the outcome: they are never
processed. -/
theorem runLoop_quota_stable (o : Oracles) (page : String) :
    ∀ (es extra : List ImgElement) (acc : List CaptionResult) (fetched : List String)
      (res : List CaptionResult) (fin : List String),
      acc.length < 5 →
      runLoop o page es acc fetched = .ok (res, fin) →
      5 ≤ res.length →
      runLoop o page (es ++ extra) acc fetched = .ok (res, fin) := by
  intro es
  induction es with
  | nil =>
    intro extra acc fetched res fin hlt h hq
    rw [runLoop_nil] at h
    simp only [Except.ok.injEq, Prod.mk.injEq] at h
    obtain ⟨rfl, rfl⟩ := h
    omega
  | cons e rest ih =>
    intro extra acc fetched res fin hlt h hq
    cases hE : extractRef e with
    | error u =>
      cases u
      rw [runLoop_extract_error o page e rest acc fetched hE] at h
      exact Except.noConfusion h
    | ok u =>
      by_cases hf : isFalsy u = true
      · rw [runLoop_skip_falsy o page e rest acc fetched u hE hf] at h
        rw [List.cons_append, runLoop_skip_falsy o page e (rest ++ extra) acc fetched u hE hf]
        exact ih extra acc fetched res fin hlt h hq
      · cases u with
        | none => simp [isFalsy] at hf
        | some s =>
          have hs : s ≠ "" := by simpa [isFalsy] using hf
          cases hR : resolveCandidate page s with
          | none =>
            rw [runLoop_skip_unresolved o page e rest acc fetched s hE hs hR] at h
            rw [List.cons_append,
              runLoop_skip_unresolved o page e (rest ++ extra) acc fetched s hE hs hR]
            exact ih extra acc fetched res fin hlt h hq
          | some r =>
            cases hS : stepCandidate o r with
            | none =>
              rw [runLoop_step_none o page e rest acc fetched s r hE hs hR hS] at h
              rw [List.cons_append,
                runLoop_step_none o page e (rest ++ extra) acc fetched s r hE hs hR hS]
              exact ih extra acc (fetched ++ [r]) res fin hlt h hq
            | some pr =>
              rw [runLoop_step_some o page e rest acc fetched s r pr hE hs hR hS] at h
              rw [List.cons_append,
                runLoop_step_some o page e (rest ++ extra) acc fetched s r pr hE hs hR hS]
              by_cases hbr : 5 ≤ (acc ++ [pr]).length
              · rw [if_pos hbr] at h ⊢
                exact h
              · rw [if_neg hbr] at h ⊢
                exact ih extra (acc ++ [pr]) (fetched ++ [r]) res fin
                  (Nat.lt_of_not_le hbr) h hq

/-- Every entry of a successful run's result list either was already in
the accumulator or is a successful fetch/size/caption outcome for its
own recorded URL. -/
theorem runLoop_mem (o : Oracles) (page : String) :
    ∀ (es : List ImgElement) (acc : List CaptionResult) (fetched : List String)
      (res : List CaptionResult) (fin : List String),
      runLoop o page es acc fetched = .ok (res, fin) →
      ∀ pr ∈ res, pr ∈ acc ∨ stepCandidate o pr.1 = some pr := by
  intro es
  induction es with
  | nil =>
    intro acc fetched res fin h pr hpr
    rw [runLoop_nil] at h
    simp only [Except.ok.injEq, Prod.mk.injEq] at h
    obtain ⟨rfl, rfl⟩ := h
    exact Or.inl hpr
  | cons e rest ih =>
    intro acc fetched res fin h pr hpr
    cases hE : extractRef e with
    | error u =>
      cases u
      rw [runLoop_extract_error o page e rest acc fetched hE] at h
      exact Except.noConfusion h
    | ok u =>
      by_cases hf : isFalsy u = true
      · rw [runLoop_skip_falsy o page e rest acc fetched u hE hf] at h
        exact ih acc fetched res fin h pr hpr
      · cases u with
        | none => simp [isFalsy] at hf
        | some s =>
          have hs : s ≠ "" := by simpa [isFalsy] using hf
          cases hR : resolveCandidate page s with
          | none =>
            rw [runLoop_skip_unresolved o page e rest acc fetched s hE hs hR] at h
            exact ih acc fetched res fin h pr hpr
          | some r =>
            cases hS : stepCandidate o r with
            | none =>
              rw [runLoop_step_none o page e rest acc fetched s r hE hs hR hS] at h
              exact ih acc (fetched ++ [r]) res fin h pr hpr
            | some pr0 =>
              have hfst : pr0.1 = r := stepCandidate_fst o r pr0 hS
              rw [runLoop_step_some o page e rest acc fetched s r pr0 hE hs hR hS] at h
              by_cases hbr : 5 ≤ (acc ++ [pr0]).length
              · rw [if_pos hbr] at h
                simp only [Except.ok.injEq, Prod.mk.injEq] at h
                obtain ⟨rfl, rfl⟩ := h
                rcases List.mem_append.mp hpr with hin | hin
                · exact Or.inl hin
                · right
                  rw [List.mem_singleton.mp hin, hfst]
                  exact hS
              · rw [if_neg hbr] at h
                rcases ih (acc ++ [pr0]) (fetched ++ [r]) res fin h pr hpr with hin | hgood
                · rcases List.mem_append.mp hin with hin2 | hin2
                  · exact Or.inl hin2
                  · right
                    rw [List.mem_singleton.mp hin2, hfst]
                    exact hS
                · exact Or.inr hgood

/-! ### Resolver-level claims -/

/-- Claim C1, counterexample: the claim says resolving `/a.jpg` against
the page `https://example.com/blog` yields the origin
`https://example.com` followed by the path, but the code concatenates
the whole page URL, producing `https://example.com/blog/a.jpg`. -/
theorem resolveRef_blog_counterexample :
    resolveRef "https://example.com/blog" "/a.jpg" =
        some "https://example.com/blog/a.jpg" ∧
      resolveRef "https://example.com/blog" "/a.jpg" ≠
        some ("https://example.com" ++ "/a.jpg") :=
  ⟨rfl, by decide⟩

/-- Claim C1 (amended): for every root-relative reference (starts with
`/` but not `//`), resolution against the PageReference
`https://example.com/blog` concatenates the page URL with trailing
slashes stripped — here `https://example.com/blog` itself, not just the
origin — with the raw path appended unchanged. -/
theorem resolveRef_rootRelative_appends_page_url (s : String)
    (h1 : strStartsWith s "/" = true) (h2 : strStartsWith s "//" = false) :
    resolveRef "https://example.com/blog" s =
      some ("https://example.com/blog" ++ s) := by
  have hr : rstripSlashes "https://example.com/blog" = "https://example.com/blog" := rfl
  simp [resolveRef, h1, h2, hr]

/-- Claim C1, witness at the root-relative reference `/a.jpg`. -/
theorem resolveRef_rootRelative_witness :
    strStartsWith "/a.jpg" "/" = true ∧ strStartsWith "/a.jpg" "//" = false ∧
      resolveRef "https://example.com/blog" "/a.jpg" =
        some ("https://example.com/blog" ++ "/a.jpg") :=
  ⟨by decide, by decide,
    resolveRef_rootRelative_appends_page_url "/a.jpg" (by decide) (by decide)⟩

/-- Claim C3: a raw reference containing `.svg` anywhere is never
resolved, and an element extracting to such a reference is skipped
before any fetch: the loop continues on the rest with the accumulator
and the fetch trace unchanged. -/
theorem svg_never_resolved_or_fetched (o : Oracles) (page s : String)
    (e : ImgElement) (rest : List ImgElement) (acc : List CaptionResult)
    (fetched : List String) (hsvg : strContains s ".svg" = true)
    (hE : extractRef e = .ok (some s)) :
    resolveCandidate page s = none ∧
      runLoop o page (e :: rest) acc fetched = runLoop o page rest acc fetched := by
  have hres : resolveCandidate page s = none := by
    simp [resolveCandidate, containsSvgStr, hsvg]
  have hs : s ≠ "" := by
    intro hempty
    rw [hempty] at hsvg
    exact absurd hsvg (by decide)
  exact ⟨hres, runLoop_skip_unresolved o page e rest acc fetched s hE hs hres⟩

/-- Claim C3, witness at the reference `icon.svg` carried by a `src`
attribute, under the all-failing collaborators. -/
theorem svg_never_resolved_or_fetched_witness :
    strContains "icon.svg" ".svg" = true ∧
      (resolveCandidate "https://p.example" "icon.svg" = none ∧
        runLoop oFail "https://p.example" [⟨some "icon.svg", none, none⟩] [] [] =
          runLoop oFail "https://p.example" [] [] []) :=
  ⟨by decide, svg_never_resolved_or_fetched oFail "https://p.example" "icon.svg"
      ⟨some "icon.svg", none, none⟩ [] [] [] (by decide) rfl⟩

/-- If a character list does not start with `/`, it does not start with
`//` either. -/
theorem doubleSlash_starts_slash (l : List Char)
    (h : List.isPrefixOf ['/', '/'] l = true) : List.isPrefixOf ['/'] l = true := by
  cases l with
  | nil => simp [List.isPrefixOf] at h
  | cons c cs =>
    simp [List.isPrefixOf] at h ⊢
    exact h.1

/-- Claim C10: acceptance of an already-absolute reference is a pure
string test — any raw reference that starts with `http`, does not start
with `/` and does not contain `.svg` is accepted unchanged as the
resolved reference, whether or not it is a well-formed URL. -/
theorem httpRef_accepted_unchanged (page s : String)
    (h1 : containsSvgStr s = false) (h2 : strStartsWith s "/" = false)
    (h3 : strStartsWith s "http" = true) :
    resolveCandidate page s = some s := by
  have h2' : strStartsWith s "//" = false := by
    cases hdbl : strStartsWith s "//" with
    | false => rfl
    | true =>
      exfalso
      have hone : strStartsWith s "/" = true := doubleSlash_starts_slash s.data hdbl
      rw [hone] at h2
      exact Bool.noConfusion h2
  simp [resolveCandidate, resolveRef, h1, h2, h2', h3]

/-- Claim C10, witness at the non-URL string `httpfoo`. -/
theorem httpRef_accepted_unchanged_witness :
    containsSvgStr "httpfoo" = false ∧ strStartsWith "httpfoo" "/" = false ∧
      strStartsWith "httpfoo" "http" = true ∧
      resolveCandidate "https://site.com" "httpfoo" = some "httpfoo" :=
  ⟨by decide, by decide, by decide,
    httpRef_accepted_unchanged "https://site.com" "httpfoo"
      (by decide) (by decide) (by decide)⟩

/-! ### Pipeline-level claims -/

/-- Claim C2: on markup containing exactly the elements
`img src="/a.jpg"`, `img src="http://x/b.svg"` and
`img data-src="//cdn/c.jpg"`, with page `https://site.com`, the
pre-fetch stages hand exactly the two resolved URLs
`https://site.com/a.jpg` and `https://cdn/c.jpg` to the image fetcher,
in that order; the `.svg` candidate is excluded before any fetch,
whatever the fetch and caption collaborators do. -/
theorem resolver_stage_end_to_end (o : Oracles) :
    ∃ rs, runLoop o "https://site.com"
        [⟨some "/a.jpg", none, none⟩, ⟨some "http://x/b.svg", none, none⟩,
          ⟨none, some "//cdn/c.jpg", none⟩] [] []
      = .ok (rs, ["https://site.com/a.jpg", "https://cdn/c.jpg"]) := by
  have hE1 : extractRef ⟨some "/a.jpg", none, none⟩ = .ok (some "/a.jpg") := rfl
  have hR1 : resolveCandidate "https://site.com" "/a.jpg" =
      some "https://site.com/a.jpg" := rfl
  have hE2 : extractRef ⟨some "http://x/b.svg", none, none⟩ =
      .ok (some "http://x/b.svg") := rfl
  have hR2 : resolveCandidate "https://site.com" "http://x/b.svg" = none := rfl
  have hE3 : extractRef ⟨none, some "//cdn/c.jpg", none⟩ =
      .ok (some "//cdn/c.jpg") := rfl
  have hR3 : resolveCandidate "https://site.com" "//cdn/c.jpg" =
      some "https://cdn/c.jpg" := rfl
  cases hS1 : stepCandidate o "https://site.com/a.jpg" with
  | none =>
    rw [runLoop_step_none o "https://site.com" _ _ [] [] _ _ hE1 (by decide) hR1 hS1,
      runLoop_skip_unresolved o "https://site.com" _ _ [] _ _ hE2 (by decide) hR2]
    cases hS3 : stepCandidate o "https://cdn/c.jpg" with
    | none =>
      rw [runLoop_step_none o "https://site.com" _ _ [] _ _ _ hE3 (by decide) hR3 hS3,
        runLoop_nil]
      exact ⟨[], rfl⟩
    | some pr3 =>
      rw [runLoop_step_some o "https://site.com" _ _ [] _ _ _ pr3 hE3 (by decide) hR3 hS3,
        if_neg (by simp), runLoop_nil]
      exact ⟨[pr3], rfl⟩
  | some pr1 =>
    rw [runLoop_step_some o "https://site.com" _ _ [] [] _ _ pr1 hE1 (by decide) hR1 hS1,
      if_neg (by simp),
      runLoop_skip_unresolved o "https://site.com" _ _ ([] ++ [pr1]) _ _ hE2 (by decide) hR2]
    cases hS3 : stepCandidate o "https://cdn/c.jpg" with
    | none =>
      rw [runLoop_step_none o "https://site.com" _ _ ([] ++ [pr1]) _ _ _ hE3
          (by decide) hR3 hS3, runLoop_nil]
      exact ⟨[pr1], rfl⟩
    | some pr3 =>
      rw [runLoop_step_some o "https://site.com" _ _ ([] ++ [pr1]) _ _ _ pr3 hE3
          (by decide) hR3 hS3, if_neg (by simp), runLoop_nil]
      exact ⟨[pr1, pr3], rfl⟩

/-- Claim C4: a successful run never accumulates more than 5 caption
results, and once the result list has reached 5 the loop has broken
out early: appending any further candidate elements to the page leaves
the outcome unchanged, so they are never processed. -/
theorem quota_bound_and_early_exit (o : Oracles) (page : String)
    (es : List ImgElement) (res : List CaptionResult) (fin : List String)
    (h : runLoop o page es [] [] = .ok (res, fin)) :
    res.length ≤ 5 ∧
      (5 ≤ res.length → ∀ extra,
        runLoop o page (es ++ extra) [] [] = .ok (res, fin)) := by
  constructor
  · have hchar := runLoop_ok_eq o page es [] [] res fin (by decide) h
    rw [hchar]
    simp [List.length_take]
  · intro hq extra
    exact runLoop_quota_stable o page es extra [] [] res fin (by decide) h hq

/-- Claim C4, witness: six fetchable candidates under the always-succeed
collaborators produce exactly five results, and a seventh candidate
appended after them is never processed. -/
theorem quota_bound_witness :
    (List.replicate 5 (("http://img.example/p.jpg", "a photo") : CaptionResult)).length ≤ 5 ∧
      (5 ≤ (List.replicate 5 (("http://img.example/p.jpg", "a photo") : CaptionResult)).length →
        ∀ extra, runLoop oGood "https://p.example" (sixCandidates ++ extra) [] [] =
          .ok (List.replicate 5 ("http://img.example/p.jpg", "a photo"),
            List.replicate 5 "http://img.example/p.jpg")) :=
  quota_bound_and_early_exit oGood "https://p.example" sixCandidates
    (List.replicate 5 ("http://img.example/p.jpg", "a photo"))
    (List.replicate 5 "http://img.example/p.jpg") rfl

/-- Claim C5: when the fetch or decode of a resolved candidate raises,
or its caption call raises, only that candidate is dropped: no
exception escapes these stages, the URL still appears in the fetch
trace, and the loop continues on the remaining elements with the same
accumulator. -/
theorem failure_skips_only_candidate (o : Oracles) (page : String)
    (e : ImgElement) (rest : List ImgElement) (acc : List CaptionResult)
    (fetched : List String) (s r : String)
    (hE : extractRef e = .ok (some s)) (hs : s ≠ "")
    (hr : resolveCandidate page s = some r)
    (hfail : o.fetchDecode r = none ∨
      ∃ img, o.fetchDecode r = some img ∧ o.captionImage img = none) :
    runLoop o page (e :: rest) acc fetched =
      runLoop o page rest acc (fetched ++ [r]) := by
  have hstep : stepCandidate o r = none := by
    rcases hfail with hnone | ⟨img, himg, hcap⟩
    · simp [stepCandidate, hnone]
    · simp [stepCandidate, himg, hcap]
  exact runLoop_step_none o page e rest acc fetched s r hE hs hr hstep

/-- Claim C5, witness: with an always-raising image fetcher, the first
candidate is skipped after its fetch and the second is still
processed. -/
theorem failure_skips_only_candidate_witness :
    oFail.fetchDecode "http://a.example/x.jpg" = none ∧
      runLoop oFail "https://site.example"
          [⟨some "http://a.example/x.jpg", none, none⟩,
            ⟨some "http://b.example/y.jpg", none, none⟩] [] [] =
        runLoop oFail "https://site.example"
          [⟨some "http://b.example/y.jpg", none, none⟩] [] ["http://a.example/x.jpg"] :=
  ⟨rfl, failure_skips_only_candidate oFail "https://site.example"
    ⟨some "http://a.example/x.jpg", none, none⟩
    [⟨some "http://b.example/y.jpg", none, none⟩] [] []
    "http://a.example/x.jpg" "http://a.example/x.jpg" rfl (by decide) rfl (Or.inl rfl)⟩

/-- Claim C6: a candidate whose fetched bytes decode to an image of
pixel area below 200 never appears in the final result list of a
successful run. -/
theorem small_image_never_in_results (o : Oracles) (page : String)
    (es : List ImgElement) (res : List CaptionResult) (fin : List String)
    (r c : String) (img : DecodedImage)
    (h : runLoop o page es [] [] = .ok (res, fin))
    (himg : o.fetchDecode r = some img)
    (hsmall : img.width * img.height < 200) :
    (r, c) ∉ res := by
  intro hmem
  rcases runLoop_mem o page es [] [] res fin h (r, c) hmem with hin | hstep
  · exact absurd hin (List.not_mem_nil _)
  · simp [stepCandidate, himg, hsmall] at hstep

/-- Claim C6, witness: a 1 x 1 tracking pixel is silently discarded
while the following 30 x 30 candidate still produces the only result. -/
theorem small_image_never_in_results_witness :
    oMixed.fetchDecode "http://small.example/s.jpg" = some ⟨1, 1⟩ ∧
      (("http://small.example/s.jpg", "a photo") : CaptionResult) ∉
        [(("http://big.example/b.jpg", "a photo") : CaptionResult)] :=
  ⟨rfl, small_image_never_in_results oMixed "https://pg.example"
    [⟨some "http://small.example/s.jpg", none, none⟩,
      ⟨some "http://big.example/b.jpg", none, none⟩]
    [("http://big.example/b.jpg", "a photo")]
    ["http://small.example/s.jpg", "http://big.example/b.jpg"]
    "http://small.example/s.jpg" "a photo" ⟨1, 1⟩ rfl rfl (by decide)⟩

/-- Claim C7: the final caption list of a successful run is exactly the
per-element outcomes of the discovered elements, in discovery order,
cut off at the quota — results are never reordered relative to
candidate discovery order. -/
theorem results_preserve_discovery_order (o : Oracles) (page : String)
    (es : List ImgElement) (res : List CaptionResult) (fin : List String)
    (h : runLoop o page es [] [] = .ok (res, fin)) :
    res = (es.filterMap (candidateResult o page)).take 5 := by
  have hchar := runLoop_ok_eq o page es [] [] res fin (by decide) h
  simpa using hchar

/-- Claim C7, witness: on a page with a discarded tracking pixel
followed by a real photo, the result list is the ordered filtered map
of the element list. -/
theorem results_preserve_discovery_order_witness :
    [(("http://big.example/b.jpg", "a photo") : CaptionResult)] =
      (([⟨some "http://small.example/s.jpg", none, none⟩,
          ⟨some "http://big.example/b.jpg", none, none⟩] : List ImgElement).filterMap
        (candidateResult oMixed "https://pg.example")).take 5 :=
  results_preserve_discovery_order oMixed "https://pg.example"
    [⟨some "http://small.example/s.jpg", none, none⟩,
      ⟨some "http://big.example/b.jpg", none, none⟩]
    [("http://big.example/b.jpg", "a photo")]
    ["http://small.example/s.jpg", "http://big.example/b.jpg"] rfl

/-- Claim C8 (code bug): an element whose only attribute is an empty
source-set yields no reference and should be skipped silently, but the
extraction step indexes the first entry of the empty split result and
raises instead. -/
theorem empty_srcset_extraction_raises :
    extractRef ⟨none, none, some ""⟩ = .error () := rfl

/-- Claim C9 (code bug): the page fetch is not the sole failure that
reaches the caller — a page whose markup contains an element with an
empty source-set attribute makes the candidate loop itself raise, so
the caller sees an exception instead of a result list. -/
theorem empty_srcset_crashes_pipeline :
    runLoop oFail "https://site.com"
      [⟨some "/a.jpg", none, none⟩, ⟨none, none, some ""⟩] [] [] = .error () := rfl

end PolyApi
